import Mathlib

/-!
# Flexi-Roaster pipeline engine: verification of the specification claims

Shallow embedding of the pipeline execution engine of the Flexi-Roaster
repository (`src/pipeline/backend/` and `src/backend/`), together with
theorems settling the frozen claims about its natural-language specification.

Conventions of the embedding:
* Python floats are modelled as rationals (`ℚ`); machine rounding of binary
  floats is immaterial to every claim settled here.
* Timestamps (`datetime.now()`) are modelled as integers (days for the risk
  scorer, abstract ticks elsewhere) threaded explicitly as a `now` argument.
* Python dictionaries keyed by strings become Lean structures or association
  lists; Python sets of strings become `List String` used only through
  membership.
* `None`-able strings are `Option String`; Python truthiness of a string is
  `s ≠ ""`, of an optional value `Option.isSome` (a present anomaly
  dictionary is always non-empty at every call site embedded here).
-/

namespace FlexiRoaster

/-! ## Configuration defaults (src/pipeline/backend/config.py, class Settings) -/

def EXECUTOR_DEFAULT_TIMEOUT : ℚ := 300

def EXECUTOR_STAGE_TIMEOUT : ℚ := 120

def EXECUTOR_MAX_RETRIES : Nat := 3

def EXECUTOR_RETRY_DELAY : ℚ := 1

def EXECUTOR_RETRY_BACKOFF : ℚ := 2

def AI_RISK_THRESHOLD_HIGH : ℚ := 7/10

def AI_RISK_THRESHOLD_MEDIUM : ℚ := 4/10

def AI_RISK_THRESHOLD_LOW : ℚ := 1/5

def AI_BLOCK_HIGH_RISK : Bool := false

/-! ## Stage configuration (src/pipeline/backend/core/executor.py, StageConfig) -/

structure StageConfig where
  id : String
  name : String
  stage_type : String
  dependencies : List String := []
  timeout : ℚ := 120
  max_retries : Nat := 3
  retry_delay : ℚ := 1
  is_critical : Bool := true
deriving DecidableEq

/-! ## DAG planner (PipelineExecutor._get_execution_order)

The Python loop keeps `remaining` (an insertion-ordered dict of stages) and
`completed` (a set of stage ids); each round it scans `remaining` in order,
emits the first stage whose dependencies are all completed, and raises
`ValueError` when no stage is ready (circular dependency).  `pickReady`
models one scan (returning the chosen stage and the rest, order preserved);
`orderAux` models the while-loop with fuel `stages.length`, which is exact
because every round removes one stage.  The Python dict is keyed by stage id;
per the pipeline invariant (spec section 3) ids are unique, under which the
insertion-ordered dict is the stage list itself, and the claims about the
planner carry that uniqueness hypothesis. -/

def readyB (completed : List String) (s : StageConfig) : Bool :=
  s.dependencies.all (fun d => completed.contains d)

def pickReady (completed : List String) : List StageConfig → Option (StageConfig × List StageConfig)
  | [] => none
  | s :: rest =>
    if readyB completed s then some (s, rest)
    else (pickReady completed rest).map (fun p => (p.1, s :: p.2))

def orderAux : Nat → List StageConfig → List String → Option (List String)
  | _, [], _ => some []
  | 0, _ :: _, _ => none
  | Nat.succ fuel, remaining, completed =>
    match pickReady completed remaining with
    | none => none
    | some (s, rest) => (orderAux fuel rest (s.id :: completed)).map (fun tl => s.id :: tl)

def getExecutionOrder (stages : List StageConfig) : Option (List String) :=
  orderAux stages.length stages []

/-- Abbreviation for a minimal stage used in concrete examples. -/
def mkStage (id : String) (deps : List String) : StageConfig :=
  { id := id, name := id, stage_type := "transform", dependencies := deps }

/-- An order respects the dependency edges when every dependency of a stage
appears strictly before the stage's id. -/
def RespectsDeps (stages : List StageConfig) (ord : List String) : Prop :=
  ∀ s ∈ stages, ∀ d ∈ s.dependencies, ∀ o1 o2, ord = o1 ++ s.id :: o2 → d ∈ o1

/-- A topological order of the stage list: a permutation of the stage ids
that respects every dependency edge. -/
def IsTopoOrder (stages : List StageConfig) (ord : List String) : Prop :=
  List.Perm ord (stages.map (fun s => s.id)) ∧ RespectsDeps stages ord

/-- The dependency graph of the stage list is acyclic (it admits a
topological order; for finite graphs this is equivalent to cycle-freeness). -/
def AcyclicStages (stages : List StageConfig) : Prop :=
  ∃ ord, IsTopoOrder stages ord

/-- Every dependency references an existing stage of the same pipeline
(spec section 3 invariant on pipeline definitions). -/
def DepsWF (stages : List StageConfig) : Prop :=
  ∀ s ∈ stages, ∀ d ∈ s.dependencies, d ∈ stages.map (fun s => s.id)

/-! ### The spec-side planner (section 4.6): Kahn steps with tie-break by
original stage index.  `kahnStep` selects, among the stages not yet emitted
whose dependencies are all emitted, the one with the least index in the
original definition (`find?` on the order-preserving filter); this definition
follows the specification's words and is compared with `getExecutionOrder`,
which is translated from the source. -/

def kahnStep (stages : List StageConfig) (emitted : List String) : Option StageConfig :=
  (stages.filter (fun s => !(emitted.contains s.id))).find?
    (fun s => s.dependencies.all (fun d => emitted.contains d))

def kahnAux (stages : List StageConfig) : Nat → List String → List String
  | 0, _ => []
  | Nat.succ n, emitted =>
    match kahnStep stages emitted with
    | none => []
    | some s => s.id :: kahnAux stages n (emitted ++ [s.id])

def kahnSpec (stages : List StageConfig) : List String :=
  kahnAux stages stages.length []

/-- The concrete three-stage pipeline A -> B -> C used as planner witness. -/
def plannerWitnessStages : List StageConfig :=
  [mkStage "a" [], mkStage "b" ["a"], mkStage "c" ["b"]]

/-! ## Durable-store model (src/pipeline/backend/db/models.py, crud.py)

`ExecutionStatus` is the `db.models.ExecutionStatus` enumeration;
`ExecutionRow` models one row of the `executions` table with timestamps as
abstract integer ticks (a stored datetime is always truthy in Python, so a
present value is `some`). -/

inductive ExecutionStatus
  | pending | running | paused | failed | completed | rolled_back | cancelled
deriving DecidableEq

/-- The terminal statuses listed in `ExecutionCRUD.update_status`
(crud.py lines 199-200). -/
def ExecutionStatus.isTerminal : ExecutionStatus → Bool
  | .completed | .failed | .cancelled | .rolled_back => true
  | _ => false

structure ExecutionRow where
  id : String
  pipeline_id : String
  pipeline_name : String
  status : ExecutionStatus
  total_stages : Nat
  completed_stages : Nat := 0
  current_stage : Option String := none
  started_at : Option Int
  completed_at : Option Int := none
  duration : Option Int := none
  error : Option String := none
  risk_score : Option ℚ := none
deriving DecidableEq

/-- Python truthiness of an optional string: present and non-empty. -/
def pyTruthy : Option String → Bool
  | none => false
  | some s => s != ""

/-- `ExecutionCRUD.update_status` (crud.py lines 178-206) applied to one row:
always overwrites `status`; sets `error` only when truthy, the two optional
counters only when passed; for every terminal status it unconditionally
stamps `completed_at` with the current clock and, when `started_at` is set,
recomputes `duration`. -/
def updateStatusRow (r : ExecutionRow) (status : ExecutionStatus) (error : Option String)
    (completed_stages : Option Nat) (current_stage : Option String) (now : Int) :
    ExecutionRow :=
  let r1 := { r with status := status }
  let r2 := if pyTruthy error then { r1 with error := error } else r1
  let r3 := match completed_stages with
    | some n => { r2 with completed_stages := n }
    | none => r2
  let r4 := match current_stage with
    | some c => { r3 with current_stage := some c }
    | none => r3
  if status.isTerminal then
    let r5 := { r4 with completed_at := some now }
    match r5.started_at with
    | some t0 => { r5 with duration := some (now - t0) }
    | none => r5
  else r4

/-! ## Coordination-port model (src/pipeline/backend/core/redis_state.py)

The Redis keyspace is modelled as the list of present keys; only the
duplicate-run soft lock matters for the claims.  `preventDuplicateRun`
models `RedisStateManager.prevent_duplicate_run` (lines 201-222) on an
available Redis: an atomic SET NX that returns `true` exactly when the key
already exists (a run is in progress), and records the key otherwise. -/

def pipelineLockKey (pid : String) : String := "lock:pipeline:" ++ pid

def preventDuplicateRun (keys : List String) (pid : String) : Bool × List String :=
  if keys.contains (pipelineLockKey pid) then (true, keys)
  else (false, pipelineLockKey pid :: keys)

/-- `RedisStateManager.release_pipeline_lock` (lines 224-235): delete the key. -/
def releasePipelineLock (keys : List String) (pid : String) : List String :=
  keys.filter (fun k => k != pipelineLockKey pid)

/-! ## Action selector (src/pipeline/backend/ai/safety_engine.py,
AISafetyEngine.select_safe_action, lines 408-459) -/

inductive SafeAction
  | CONTINUE | RETRY_STAGE | SKIP_STAGE | PAUSE_PIPELINE | ROLLBACK | TERMINATE
deriving DecidableEq

/-- The anomaly dictionary of the selector context; every call site embedded
here passes it non-empty or absent, so presence models truthiness.  Only its
`type` entry is read. -/
structure AnomalyCtx where
  anomaly_type : String
deriving DecidableEq

def selectSafeAction (error : Option String) (anomaly : Option AnomalyCtx)
    (riskLevel : String) (isStageCritical : Bool) (retryCount maxRetries : Nat) :
    SafeAction × String :=
  if pyTruthy error = false ∧ anomaly = none then
    (SafeAction.CONTINUE, "No issues detected, continuing execution.")
  else if retryCount < maxRetries ∧ pyTruthy error = true ∧ anomaly = none then
    (SafeAction.RETRY_STAGE,
      "Stage failed with error. Attempting retry " ++ toString (retryCount + 1) ++
        "/" ++ toString maxRetries ++ ".")
  else if isStageCritical = false then
    (SafeAction.SKIP_STAGE,
      "Non-critical stage failed. Skipping to continue pipeline execution.")
  else if (riskLevel = "high" ∨ riskLevel = "critical") ∨ maxRetries ≤ retryCount then
    match anomaly with
    | some a =>
      if a.anomaly_type = "error_burst" then
        (SafeAction.ROLLBACK,
          "Error burst detected after " ++ toString retryCount ++
            " retries. Rolling back to prevent cascading failures.")
      else
        (SafeAction.PAUSE_PIPELINE,
          "Pipeline paused after " ++ toString retryCount ++
            " failed retries. Awaiting manual intervention.")
    | none =>
      (SafeAction.PAUSE_PIPELINE,
        "Pipeline paused after " ++ toString retryCount ++
          " failed retries. Awaiting manual intervention.")
  else
    (SafeAction.PAUSE_PIPELINE, "Pausing pipeline for safety review.")

/-! ## Retry backoff (PipelineExecutor._execute_stage_with_retry, line 399)

Before attempt `a` the runner sleeps only when `a > 0`, for
`stage.retry_delay * settings.EXECUTOR_RETRY_BACKOFF ** a` seconds. -/

def attemptBackoffSleep (stage : StageConfig) (attempt : Nat) : Option ℚ :=
  if attempt > 0 then some (stage.retry_delay * EXECUTOR_RETRY_BACKOFF ^ attempt)
  else none

/-! ## Execution supervisor model (PipelineExecutor.execute_pipeline and
PipelineExecutor._execute_stages)

The mutable world the claims observe is the Redis keyspace and the durable
store (`SysState`).  Stage-handler outcomes (including the retries internal
to `_execute_stage_with_retry`) are abstracted by an oracle from stage id to
final outcome; Redis execution/stage state writes, heartbeat bookkeeping and
the cancel/pause flags (never set in the scenarios of the claims) are not
part of the observed state.  A raised Python exception travels as
`Except.error` up to the handler of `execute_pipeline`, which marks the
execution failed. -/

structure LogRow where
  execution_id : String
  level : String
  message : String
  stage_id : Option String := none
deriving DecidableEq

structure SysState where
  redis_keys : List String := []
  executions : List ExecutionRow := []
  stage_rows : List (String × String) := []
  logs : List LogRow := []
deriving DecidableEq

def addLog (st : SysState) (eid level msg : String) (sid : Option String) : SysState :=
  { st with logs := st.logs ++
      [{ execution_id := eid, level := level, message := msg, stage_id := sid }] }

/-- `ExecutionCRUD.update_status` applied inside `with get_db()`: rewrite the
row whose id matches. -/
def markStatus (st : SysState) (eid : String) (s : ExecutionStatus) (error : Option String)
    (completedStages : Option Nat) (now : Int) : SysState :=
  let upd := fun r =>
    if r.id == eid then updateStatusRow r s error completedStages none now else r
  { st with executions := st.executions.map upd }

/-- Final outcome of `_execute_stage_with_retry` for one stage: `success`,
or failure with the captured error message (`str(e)`, stored into
`context.results[stage_id]` as the `error` entry). -/
structure StageOutcome where
  success : Bool
  errorMsg : String := ""
deriving DecidableEq

/-- The dictionary returned by `execute_pipeline` / `_execute_stages`. -/
structure PipelineResult where
  success : Bool
  execution_id : Option String
  status : String
  completed_stages : Option Nat := none
  error : Option String := none
deriving DecidableEq

/-- The per-stage loop of `_execute_stages` (executor.py lines 290-375).
On failure the selector is consulted with the stored error, no anomaly,
risk level "medium", the stage's criticality, and
`retry_count = max_retries = settings.EXECUTOR_MAX_RETRIES`; `SKIP_STAGE`
logs a warning and moves on without incrementing `completed_stages`;
`ROLLBACK` and `PAUSE_PIPELINE`/`TERMINATE` finalize; any other action falls
through to the unconditional `completed_stages += 1`. -/
def stagesLoop (oracle : String → StageOutcome) (settingsMaxRetries : Nat)
    (stages : List StageConfig) (eid : String) (now : Int) :
    List String → Nat → SysState → SysState × Except String PipelineResult
  | [], completed, st =>
    let st := markStatus st eid .completed none (some completed) now
    let st := addLog st eid "info"
      ("Pipeline completed successfully with " ++ toString completed ++ " stages") none
    (st, .ok { success := true, execution_id := some eid, status := "completed",
               completed_stages := some completed })
  | sid :: rest, completed, st =>
    match stages.find? (fun s => s.id == sid) with
    | none => (st, .error ("Stage not found: " ++ sid))
    | some stage =>
      let oc := oracle sid
      if oc.success then
        stagesLoop oracle settingsMaxRetries stages eid now rest (completed + 1) st
      else
        let ae := selectSafeAction (some oc.errorMsg) none "medium" stage.is_critical
          settingsMaxRetries settingsMaxRetries
        match ae.1 with
        | .SKIP_STAGE =>
          let st := addLog st eid "warning"
            ("Skipping non-critical stage " ++ sid ++ ": " ++ ae.2) (some sid)
          stagesLoop oracle settingsMaxRetries stages eid now rest completed st
        | .ROLLBACK =>
          let st := markStatus st eid .rolled_back none none now
          let st := addLog st eid "warning"
            ("Pipeline rolled back after " ++ toString completed ++ " stages") none
          (st, .ok { success := false, execution_id := some eid, status := "rolled_back",
                     completed_stages := some completed,
                     error := some ("Rolled back after stage " ++ sid ++ " failure") })
        | .PAUSE_PIPELINE | .TERMINATE =>
          let msg := "Stage " ++ sid ++ " failed: " ++ ae.2
          let st := markStatus st eid .failed (some msg) none now
          let st := addLog st eid "error" ("Pipeline execution failed: " ++ msg) none
          (st, .ok { success := false, execution_id := some eid, status := "failed",
                     completed_stages := some completed, error := some msg })
        | .CONTINUE | .RETRY_STAGE =>
          stagesLoop oracle settingsMaxRetries stages eid now rest (completed + 1) st

/-- The `ValueError` message of `_get_execution_order`; its rendering of the
remaining ids is immaterial to every claim, so it is kept abstract here. -/
def circularDepMessage : String := "Circular dependency detected in stages"

/-- `_execute_stages` (lines 276-375): compute the order first (a cycle
raises before any database update), then set the row running, log the order
and iterate. -/
def executeStagesM (oracle : String → StageOutcome) (settingsMaxRetries : Nat)
    (stages : List StageConfig) (eid : String) (now : Int) (st : SysState) :
    SysState × Except String PipelineResult :=
  match getExecutionOrder stages with
  | none => (st, .error circularDepMessage)
  | some ord =>
    let st := markStatus st eid .running none none now
    let st := addLog st eid "info" ("Execution order: " ++ String.intercalate " -> " ord) none
    stagesLoop oracle settingsMaxRetries stages eid now ord 0 st

/-- `ExecutionCRUD.create`: a fresh row in status pending. -/
def newExecutionRow (eid pid pname : String) (totalStages : Nat) (risk : Option ℚ)
    (now : Int) : ExecutionRow :=
  { id := eid, pipeline_id := pid, pipeline_name := pname, status := .pending,
    total_stages := totalStages, started_at := some now, risk_score := risk }

/-- `execute_pipeline` after a successful duplicate-run check (lines 139-274):
risk gate, row creation, stage rows, start log, stage execution, and the
`finally` release of the pipeline lock; an escaped exception marks the
execution failed. -/
def executeAdmitted (st : SysState) (pid pname : String) (stages : List StageConfig)
    (riskBlock : Bool) (riskScore : ℚ) (oracle : String → StageOutcome)
    (settingsMaxRetries : Nat) (eid : String) (now : Int) : SysState × PipelineResult :=
  if riskBlock then
    (st, { success := false, execution_id := some eid, status := "blocked",
           error := some "Execution blocked due to high risk" })
  else
    let st := { st with
      executions := st.executions ++ [newExecutionRow eid pid pname stages.length (some riskScore) now],
      stage_rows := st.stage_rows ++ stages.map (fun s => (eid, s.id)) }
    let st := addLog st eid "info" ("Starting pipeline execution: " ++ pname) none
    let out := executeStagesM oracle settingsMaxRetries stages eid now st
    let st2 := { out.1 with redis_keys := releasePipelineLock out.1.redis_keys pid }
    match out.2 with
    | .ok r => (st2, r)
    | .error e =>
      let st3 := markStatus st2 eid .failed (some e) none now
      let st3 := addLog st3 eid "error" ("Pipeline execution failed: " ++ e) none
      (st3, { success := false, execution_id := some eid, status := "failed",
              error := some e })

/-- `execute_pipeline` (lines 111-274): the duplicate-run gate rejects
without touching the durable store; otherwise the admitted flow runs. -/
def executePipelineM (st : SysState) (pid pname : String) (stages : List StageConfig)
    (riskBlock : Bool) (riskScore : ℚ) (oracle : String → StageOutcome)
    (settingsMaxRetries : Nat) (eid : String) (now : Int) : SysState × PipelineResult :=
  let dup := preventDuplicateRun st.redis_keys pid
  if dup.1 then
    (st, { success := false, execution_id := none, status := "rejected",
           error := some "Pipeline is already running" })
  else
    executeAdmitted { st with redis_keys := dup.2 } pid pname stages riskBlock riskScore
      oracle settingsMaxRetries eid now

/-! ## Risk scorer (src/pipeline/backend/ai/safety_engine.py)

Python `round(x, n)` on floats is modelled as exact rational rounding to
`n` decimals (the float/banker subtleties are immaterial to the claims,
which concern band edges and determinism). -/

def pyRound3 (x : ℚ) : ℚ := (round (x * 1000) : ℤ) / 1000

def pyRound1 (x : ℚ) : ℚ := (round (x * 10) : ℤ) / 10

/-- The hardcoded critical threshold of `AISafetyEngine.__init__`
(safety_engine.py line 108): unlike low/medium/high it does not come from
the settings. -/
def RISK_THRESHOLD_CRITICAL : ℚ := 9/10

/-- `AISafetyEngine._get_risk_level` (lines 258-267).  Note the configured
low threshold is never consulted: everything below the medium threshold is
"low". -/
def getRiskLevel (score : ℚ) : String :=
  if RISK_THRESHOLD_CRITICAL ≤ score then "critical"
  else if AI_RISK_THRESHOLD_HIGH ≤ score then "high"
  else if AI_RISK_THRESHOLD_MEDIUM ≤ score then "medium"
  else "low"

/-- `ai.safety_engine.PipelineStats`; timestamps in whole days. -/
structure PipelineStats where
  pipeline_id : String
  pipeline_name : String
  total_executions : Nat := 0
  successful_executions : Nat := 0
  failed_executions : Nat := 0
  avg_duration : ℚ := 0
  std_duration : ℚ := 0
  last_7_days_failures : Nat := 0
  last_7_days_executions : Nat := 0
  stage_count : Nat := 0
  last_failure_time : Option Int := none
  last_success_time : Option Int := none
  consecutive_failures : Nat := 0
deriving DecidableEq

def PipelineStats.failure_rate (s : PipelineStats) : ℚ :=
  if s.total_executions = 0 then 0
  else (s.failed_executions : ℚ) / (s.total_executions : ℚ)

/-- One entry of the factors list of `assess_risk` (the description string is
a pure rendering of these fields and is omitted). -/
structure RiskFactor where
  name : String
  value : ℚ
  score : ℚ
  weight : ℚ
deriving DecidableEq

/-- `ai.safety_engine.RiskAssessment`.  The explanation is modelled by its
content: the factor names with their percentage contributions, ordered as
`_generate_risk_explanation` orders them (stable sort by contribution,
largest first); the surrounding prose is a pure rendering of this data. -/
structure RiskAssessment where
  risk_score : ℚ
  risk_level : String
  should_block : Bool
  factors : List RiskFactor
  recommendations : List String
  explanation : List (String × ℚ)
deriving DecidableEq

/-- `AISafetyEngine.assess_risk` (safety_engine.py lines 135-256).  The only
use of the clock is `days_since = (datetime.now() - stats.last_success_time).days`
when a last success is recorded; `now` is that clock in days. -/
def assessRisk (stats : PipelineStats) (now : Int) : RiskAssessment :=
  let failure_rate_score := min (stats.failure_rate * (3/2)) 1
  let f1 : RiskFactor :=
    { name := "historical_failure_rate", value := pyRound1 (stats.failure_rate * 100),
      score := pyRound3 failure_rate_score, weight := 30/100 }
  let recs1 := if stats.failure_rate > 3/10
    then ["Review pipeline configuration and error handling"] else []
  let recent_rate := if stats.last_7_days_executions > 0
    then (stats.last_7_days_failures : ℚ) / (stats.last_7_days_executions : ℚ) else 0
  let f2 : RiskFactor :=
    { name := "recent_failures", value := (stats.last_7_days_failures : ℚ),
      score := pyRound3 (min (recent_rate * 2) 1), weight := 25/100 }
  let recs2 := if stats.last_7_days_failures ≥ 3
    then ["Investigate recent failure patterns"] else []
  let f3 : RiskFactor :=
    { name := "consecutive_failures", value := (stats.consecutive_failures : ℚ),
      score := pyRound3 (min ((stats.consecutive_failures : ℚ) / 3) 1), weight := 15/100 }
  let recs3 := if stats.consecutive_failures ≥ 2
    then ["Consider running a test execution first"] else []
  let duration_score :=
    if stats.avg_duration > 0 then
      if stats.avg_duration > EXECUTOR_DEFAULT_TIMEOUT * (8/10) then (8/10 : ℚ)
      else if stats.avg_duration > 120 then min (stats.avg_duration / 300) (6/10)
      else 0
    else 0
  let f4 : RiskFactor :=
    { name := "duration_anomaly", value := pyRound1 stats.avg_duration,
      score := pyRound3 duration_score, weight := 10/100 }
  let recs4 := if duration_score > 1/2 then ["Consider optimizing slow stages"] else []
  let f5 : RiskFactor :=
    { name := "stage_complexity", value := (stats.stage_count : ℚ),
      score := pyRound3 (min ((stats.stage_count : ℚ) / 15) 1), weight := 10/100 }
  let recs5 := if stats.stage_count > 10
    then ["Consider breaking pipeline into smaller units"] else []
  let factors6 : List RiskFactor :=
    match stats.last_success_time with
    | some t =>
      let days_since : Int := now - t
      [{ name := "time_since_success", value := (days_since : ℚ),
         score := pyRound3 (min ((days_since : ℚ) / 7) 1), weight := 10/100 }]
    | none => []
  let factors := [f1, f2, f3, f4, f5] ++ factors6
  let risk_score := pyRound3 (min ((factors.map (fun f => f.score * f.weight)).sum) 1)
  let risk_level := getRiskLevel risk_score
  let should_block := AI_BLOCK_HIGH_RISK && (risk_level == "high" || risk_level == "critical")
  let sorted := factors.mergeSort (fun a b => b.score * b.weight ≤ a.score * a.weight)
  { risk_score := risk_score, risk_level := risk_level, should_block := should_block,
    factors := factors,
    recommendations := recs1 ++ recs2 ++ recs3 ++ recs4 ++ recs5,
    explanation := sorted.map (fun f => (f.name, f.score * f.weight * 100)) }

/-! ## External orchestrator callback route
(src/backend/api/routes/airflow.py, airflow_callback)

This route lives in the `src/backend` prototype, whose execution-status
enumeration has no paused/rolled_back member.  The handler is modelled
statement by statement, including the error path that dominates it as
shipped: its first statement (line 96) reads
`settings.AIRFLOW_CALLBACK_SECRET`, a field the Settings class of
src/backend/config.py never declares, so the read raises AttributeError
before the execution record is even looked up.  (In the running program the
failure comes even earlier: the body of config.py names `Union` at line 18
and `field_validator` at line 20 without importing either, so
`import backend.config` raises NameError and the route module never loads.
The model charitably starts at the handler body and still meets the line-96
failure first.)  Independently, schemas.py lines 120-121 annotate the
request field `callback_type` twice; the second, plain-`str` annotation
wins, so the later statement `callback.callback_type.value` (line 106)
raises AttributeError for every request, still before the lineage check and
before any assignment.  An uncaught exception escapes FastAPI as a 500 with
the execution record untouched. -/

inductive ApiExecutionStatus
  | pending | running | completed | failed | cancelled
deriving DecidableEq

/-- The statuses of the `src/backend` model that are engine-terminal. -/
def ApiExecutionStatus.isTerminal : ApiExecutionStatus → Bool
  | .completed | .failed | .cancelled => true
  | _ => false

structure ApiExecution where
  id : String
  status : ApiExecutionStatus
  completed_at : Option Int := none
  error : Option String := none
  dag_id : Option String := none
  dag_run_id : Option String := none
deriving DecidableEq

/-- The effective AirflowCallbackRequest schema (schemas.py lines 116-126):
the class body annotates `callback_type` twice, and the second annotation,
a plain `str`, overrides the enum one of line 120, so the parsed field is a
string. -/
structure CallbackReq where
  execution_id : String
  callback_type : String
  dag_id : String
  dag_run_id : String
  task_id : Option String := none
  message : Option String := none
  error : Option String := none
deriving DecidableEq

/-- A Python exception escaping the handler: FastAPI turns an HTTPException
into its status code and any other exception into a 500 response; in both
cases the handler body stops where the exception is raised. -/
inductive PyExc
  | attributeError (msg : String)
  | httpException (code : Nat)
deriving DecidableEq

/-- The field names declared by the Settings class of src/backend/config.py
(lines 8-45).  AIRFLOW_CALLBACK_SECRET is not among them. -/
def backendSettingsFields : List String :=
  ["APP_NAME", "APP_VERSION", "DEBUG", "API_PREFIX", "CORS_ORIGINS",
   "DATABASE_URL", "HOST", "PORT", "LOG_LEVEL", "LOG_REQUESTS",
   "LOG_REQUEST_BODY", "LOG_RESPONSE_BODY", "SENSITIVE_FIELDS"]

/-- The attribute read `settings.AIRFLOW_CALLBACK_SECRET` performed by line
96 of airflow.py: pydantic raises AttributeError for a name outside the
declared field set, which is the case here.  The ok branch is the
counterfactual continuation for a declared optional-string field; none of
the declared fields bears this name, so it carries no secret. -/
def settingsGetSecret : Except PyExc (Option String) :=
  if backendSettingsFields.contains "AIRFLOW_CALLBACK_SECRET" then Except.ok none
  else Except.error (PyExc.attributeError
    "Settings object has no attribute AIRFLOW_CALLBACK_SECRET")

/-- The attribute read `.value` on a Python str (line 106 reads
`callback.callback_type.value` and the field is a plain str): the str type
defines no attribute named value, so the access raises AttributeError for
every string. -/
def strValueAttr (_s : String) : Except PyExc String :=
  Except.error (PyExc.attributeError "str object has no attribute value")

/-- `_validate_execution_lineage` (lines 67-83): a 409 only when a truthy
expected value disagrees. -/
def lineageOk (e : ApiExecution) (cb : CallbackReq) : Bool :=
  (match e.dag_id with
    | some d => if d != "" then cb.dag_id == d else true
    | none => true) &&
  (match e.dag_run_id with
    | some d => if d != "" then cb.dag_run_id == d else true
    | none => true)

/-- Python `a or b` on optional strings (empty string is falsy). -/
def pyOrStr (a : Option String) (b : String) : String :=
  match a with
  | some s => if s != "" then s else b
  | none => b

/-- Lines 106-144 of airflow.py, the statements after the secret gate and
the 404 lookup (the lookup is elided: the claims concern an execution
present in the store and the miss branch only raises a 404 without touching
state).  Line 106 evaluates `callback.callback_type.value` first; since the
field is a plain str this raises AttributeError before the lineage guard of
line 107 and before any assignment to the execution.  The guard and the
per-kind field updates of lines 107-125 are modelled after it exactly as
written, keyed on the AirflowCallbackTypeSchema member values, though
unreachable in the shipped program.  An unrecognised kind falls through all
branches and updates nothing but still answers ok (line 144). -/
def airflowCallbackRest (e : ApiExecution) (cb : CallbackReq) (now : Int) :
    ApiExecution × Except PyExc String :=
  match strValueAttr cb.callback_type with
  | Except.error exc => (e, Except.error exc)
  | Except.ok callbackType =>
    if lineageOk e cb = false then (e, Except.error (PyExc.httpException 409))
    else
      let done := fun (e2 : ApiExecution) =>
        (e2, Except.ok ("Airflow callback processed for execution " ++ cb.execution_id))
      if callbackType == "success" then
        done { e with status := .completed, completed_at := some now, error := none }
      else if callbackType == "failure" then
        done { e with
               status := .failed, completed_at := some now,
               error := some (pyOrStr cb.error (pyOrStr cb.message "Airflow reported failure")) }
      else if callbackType == "running" then
        done { e with status := .running, completed_at := none }
      else if callbackType == "cancelled" then
        done { e with status := .cancelled, completed_at := some now }
      else if callbackType == "retry" then
        done { e with status := .pending, completed_at := none }
      else done e

/-- `airflow_callback` (airflow.py lines 91-144) as shipped, statement by
statement.  The first statement of the body (line 96) evaluates
`settings.AIRFLOW_CALLBACK_SECRET`; the Settings class declares no such
field, so the read raises AttributeError and the handler stops with the
execution record unchanged.  Were the read to succeed, the truthiness test
and header comparison of line 96 would run, then the rest of the handler
(airflowCallbackRest). -/
def airflowCallback (e : ApiExecution) (cb : CallbackReq) (xSecret : Option String)
    (now : Int) : ApiExecution × Except PyExc String :=
  match settingsGetSecret with
  | Except.error exc => (e, Except.error exc)
  | Except.ok secret =>
    if pyTruthy secret && !(xSecret == secret) then
      (e, Except.error (PyExc.httpException 401))
    else airflowCallbackRest e cb now

/-! ## Concrete inputs used by counterexamples and witnesses -/

/-- A terminal execution row used as concrete input: completed at tick 10,
having started at tick 6. -/
def c4Row : ExecutionRow :=
  { id := "e", pipeline_id := "p", pipeline_name := "P", status := .completed,
    total_stages := 3, completed_stages := 3, started_at := some 6,
    completed_at := some 10, duration := some 4 }

/-- A stage with a 1-second timeout, unit retry delay. -/
def c6Stage : StageConfig :=
  { id := "s", name := "s", stage_type := "transform", dependencies := [],
    timeout := 1, max_retries := 3, retry_delay := 1, is_critical := true }

/-- An execution the engine brought to the terminal state completed. -/
def c3Exec : ApiExecution :=
  { id := "e", status := .completed, completed_at := some 100,
    dag_id := some "d", dag_run_id := some "r" }

/-- A matching running-kind callback for that execution. -/
def c3Callback : CallbackReq :=
  { execution_id := "e", callback_type := "running", dag_id := "d", dag_run_id := "r" }

/-- Scenario inputs reused by the concrete witnesses below. -/
def alwaysOk : String → StageOutcome := fun _ => { success := true }

def failB : String → StageOutcome :=
  fun sid => if sid == "b" then { success := false, errorMsg := "boom" }
    else { success := true }

/-- Pipeline a -> b -> c with b non-critical. -/
def skipStages : List StageConfig :=
  [mkStage "a" [], { mkStage "b" ["a"] with is_critical := false }, mkStage "c" ["b"]]

/-- A two-stage definition whose dependency graph is the cycle a -> b -> a. -/
def cycStages : List StageConfig := [mkStage "a" ["b"], mkStage "b" ["a"]]

/-- One concrete held-key state. -/
def lockedState : SysState := { redis_keys := [pipelineLockKey "p"] }

/-- Concrete statistics with no recorded last success. -/
def c9Stats : PipelineStats :=
  { pipeline_id := "p", pipeline_name := "P", total_executions := 10,
    failed_executions := 3, avg_duration := 150, stage_count := 4 }

example : getExecutionOrder [mkStage "a" [], mkStage "b" ["a"], mkStage "c" ["b"]] =
    some ["a", "b", "c"] := by decide

example : getExecutionOrder [mkStage "a" ["b"], mkStage "b" ["a"]] = none := by decide

example : getExecutionOrder [mkStage "b" ["a"], mkStage "a" [], mkStage "c" ["a"]] =
    some ["a", "b", "c"] := by decide

/-! ### Planner lemmas -/

theorem contains_iff_mem (l : List String) (x : String) : l.contains x = true ↔ x ∈ l := by
  induction l with
  | nil => simp
  | cons a t ih =>
    simp only [List.contains_cons, Bool.or_eq_true, beq_iff_eq, List.mem_cons, ih]

theorem pickReady_spec (c : List String) (l : List StageConfig) (s : StageConfig)
    (rest : List StageConfig) (h : pickReady c l = some (s, rest)) :
    ∃ l1 l2, l = l1 ++ s :: l2 ∧ rest = l1 ++ l2 ∧ readyB c s = true ∧
      ∀ t ∈ l1, readyB c t = false := by
  induction l generalizing rest with
  | nil => simp [pickReady] at h
  | cons a t ih =>
    cases ha : readyB c a with
    | true =>
      simp only [pickReady, ha, if_true, Option.some.injEq, Prod.mk.injEq] at h
      obtain ⟨rfl, rfl⟩ := h
      exact ⟨[], t, by simp, by simp, ha, by simp⟩
    | false =>
      simp only [pickReady, ha, Bool.false_eq_true, if_false] at h
      match hrec : pickReady c t with
      | none => simp only [hrec, Option.map_none'] at h; exact absurd h (by simp)
      | some (s2, rest2) =>
        simp only [hrec, Option.map_some', Option.some.injEq, Prod.mk.injEq] at h
        obtain ⟨hs, hr⟩ := h
        subst hs
        obtain ⟨l1, l2, h1, h2, h3, h4⟩ := ih _ hrec
        refine ⟨a :: l1, l2, by simp [h1], by simp [h2, hr.symm], h3, ?_⟩
        intro x hx
        rcases List.mem_cons.mp hx with hx | hx
        · simpa [hx] using ha
        · exact h4 x hx

theorem pickReady_isSome (c : List String) (l : List StageConfig)
    (h : ∃ s ∈ l, readyB c s = true) : (pickReady c l).isSome := by
  induction l with
  | nil => simp at h
  | cons a t ih =>
    cases ha : readyB c a with
    | true => simp [pickReady, ha]
    | false =>
      simp only [pickReady, ha, Bool.false_eq_true, if_false]
      obtain ⟨s, hs, hrs⟩ := h
      rcases List.mem_cons.mp hs with rfl | hs
      · rw [ha] at hrs; exact absurd hrs (by simp)
      · have hsome := ih ⟨s, hs, hrs⟩
        match hrec : pickReady c t with
        | none => rw [hrec] at hsome; simp at hsome
        | some p => simp [hrec]

theorem orderAux_perm (fuel : Nat) (rem : List StageConfig) (comp : List String)
    (ord : List String) (h : orderAux fuel rem comp = some ord) :
    List.Perm ord (rem.map (fun s => s.id)) := by
  induction fuel generalizing rem comp ord with
  | zero =>
    match rem with
    | [] => simp only [orderAux, Option.some.injEq] at h; simp [← h]
    | _ :: _ => simp [orderAux] at h
  | succ fuel ih =>
    match rem with
    | [] => simp only [orderAux, Option.some.injEq] at h; simp [← h]
    | a :: t =>
      simp only [orderAux] at h
      match hp : pickReady comp (a :: t) with
      | none => simp only [hp] at h; exact absurd h (by simp)
      | some (s, rest) =>
        simp only [hp] at h
        match hrec : orderAux fuel rest (s.id :: comp) with
        | none => simp only [hrec, Option.map_none'] at h; exact absurd h (by simp)
        | some tl =>
          simp only [hrec, Option.map_some', Option.some.injEq] at h
          obtain ⟨l1, l2, h1, h2, _, _⟩ := pickReady_spec comp (a :: t) s rest hp
          have htl : List.Perm tl (rest.map (fun s => s.id)) := ih rest (s.id :: comp) tl hrec
          rw [← h, h1]
          have htl2 : List.Perm tl (l1.map (fun s => s.id) ++ l2.map (fun s => s.id)) := by
            simpa [h2] using htl
          have hstep : List.Perm (s.id :: tl)
              (l1.map (fun s => s.id) ++ s.id :: l2.map (fun s => s.id)) :=
            (htl2.cons s.id).trans List.perm_middle.symm
          simpa using hstep

/-- `readyB` unfolded to a membership statement on the dependency list. -/
theorem readyB_iff (c : List String) (s : StageConfig) :
    readyB c s = true ↔ ∀ d ∈ s.dependencies, c.contains d = true := by
  simp [readyB, List.all_eq_true]

/-- On a list of stages with no duplicate ids, the id determines the stage. -/
theorem nodup_id_inj (l : List StageConfig) (hnd : (l.map (fun s => s.id)).Nodup)
    (s t : StageConfig) (hs : s ∈ l) (ht : t ∈ l) (h : s.id = t.id) : s = t :=
  List.inj_on_of_nodup_map hnd hs ht h

theorem orderAux_deps (fuel : Nat) (rem : List StageConfig) (comp ord : List String)
    (hnd : (rem.map (fun s => s.id)).Nodup)
    (h : orderAux fuel rem comp = some ord) :
    ∀ o1 x o2, ord = o1 ++ x :: o2 → ∀ s ∈ rem, s.id = x →
      ∀ d ∈ s.dependencies, comp.contains d = true ∨ d ∈ o1 := by
  induction fuel generalizing rem comp ord with
  | zero =>
    match rem with
    | [] =>
      simp only [orderAux, Option.some.injEq] at h
      intro o1 x o2 hdec
      rw [← h] at hdec
      exact absurd hdec (by simp)
    | _ :: _ => simp [orderAux] at h
  | succ fuel ih =>
    match rem with
    | [] =>
      simp only [orderAux, Option.some.injEq] at h
      intro o1 x o2 hdec
      rw [← h] at hdec
      exact absurd hdec (by simp)
    | a :: t =>
      have hordnd : ord.Nodup :=
        ((orderAux_perm (Nat.succ fuel) (a :: t) comp ord h).nodup_iff).mpr hnd
      simp only [orderAux] at h
      match hp : pickReady comp (a :: t) with
      | none => simp only [hp] at h; exact absurd h (by simp)
      | some (s0, rest) =>
        simp only [hp] at h
        match hrec : orderAux fuel rest (s0.id :: comp) with
        | none => simp only [hrec, Option.map_none'] at h; exact absurd h (by simp)
        | some tl =>
          simp only [hrec, Option.map_some', Option.some.injEq] at h
          obtain ⟨l1, l2, h1, h2, hready, _⟩ := pickReady_spec comp (a :: t) s0 rest hp
          have hmem0 : s0 ∈ a :: t := by
            rw [h1]; exact List.mem_append_right _ (List.mem_cons_self _ _)
          have hndrest : (rest.map (fun s => s.id)).Nodup := by
            have hsub : rest.Sublist (a :: t) := by
              rw [h1, h2]
              exact List.Sublist.append (List.Sublist.refl l1) (List.sublist_cons_self _ _)
            exact ((hsub.map (fun s => s.id)).nodup) hnd
          rw [← h] at hordnd
          have hs0tl : s0.id ∉ tl := (List.nodup_cons.mp hordnd).1
          intro o1 x o2 hdec s hs hsx d hd
          rw [← h] at hdec
          match o1 with
          | [] =>
            simp only [List.nil_append] at hdec
            injection hdec with hx htl
            have hss0 : s = s0 := nodup_id_inj (a :: t) hnd s s0 hs hmem0 (by rw [hsx, hx])
            left
            exact ((readyB_iff comp s0).mp hready) d (by rw [← hss0]; exact hd)
          | y :: o1t =>
            simp only [List.cons_append] at hdec
            injection hdec with hy htl
            have hxtl : x ∈ tl := by
              rw [htl]; exact List.mem_append_right _ (List.mem_cons_self _ _)
            have hsne : s ≠ s0 := by
              intro hcontra
              exact hs0tl (by rw [← hsx, hcontra] at hxtl; exact hxtl)
            have hsrest : s ∈ rest := by
              rw [h1] at hs
              rw [h2]
              rcases List.mem_append.mp hs with hsl | hsr
              · exact List.mem_append_left _ hsl
              · rcases List.mem_cons.mp hsr with he | hsl2
                · exact absurd he hsne
                · exact List.mem_append_right _ hsl2
            have := ih rest (s0.id :: comp) tl hndrest hrec o1t x o2 htl s hsrest hsx d hd
            rcases this with hcontains | hmem
            · simp only [List.contains_cons, Bool.or_eq_true, beq_iff_eq] at hcontains
              rcases hcontains with heq | hold
              · right; rw [heq, ← hy]; exact List.mem_cons_self _ _
              · left; exact hold
            · right; exact List.mem_cons_of_mem _ hmem

/-- A decidable search can be split at its first hit. -/
theorem exists_first_split (p : String → Bool) (l : List String)
    (h : ∃ x ∈ l, p x = true) :
    ∃ l1 x l2, l = l1 ++ x :: l2 ∧ p x = true ∧ ∀ y ∈ l1, p y = false := by
  induction l with
  | nil => simp at h
  | cons a t ih =>
    cases ha : p a with
    | true => exact ⟨[], a, t, rfl, ha, by simp⟩
    | false =>
      obtain ⟨x, hx, hpx⟩ := h
      rcases List.mem_cons.mp hx with rfl | hx
      · rw [ha] at hpx; exact absurd hpx (by simp)
      · obtain ⟨l1, y, l2, h1, h2, h3⟩ := ih ⟨x, hx, hpx⟩
        refine ⟨a :: l1, y, l2, by rw [h1]; rfl, h2, ?_⟩
        intro z hz
        rcases List.mem_cons.mp hz with rfl | hz
        · exact ha
        · exact h3 z hz

theorem orderAux_isSome (stages : List StageConfig) (w : List String)
    (hw : IsTopoOrder stages w) (hwf : DepsWF stages) :
    ∀ fuel rem comp, rem.length ≤ fuel → (∀ s ∈ rem, s ∈ stages) →
      (∀ s ∈ stages, s ∈ rem ∨ comp.contains s.id = true) →
      (orderAux fuel rem comp).isSome := by
  intro fuel
  induction fuel with
  | zero =>
    intro rem comp hlen _ _
    match rem with
    | [] => simp [orderAux]
    | _ :: _ => exact absurd hlen (by simp)
  | succ fuel ih =>
    intro rem comp hlen hsub hinv
    match rem with
    | [] => simp [orderAux]
    | a :: t =>
      -- there is a ready stage in `rem`: take the first id of the witness
      -- topological order that still lies in `rem`
      have hexw : ∃ y ∈ w, (List.map (fun s => s.id) (a :: t)).contains y = true := by
        refine ⟨a.id, ?_, by simp⟩
        have : a.id ∈ stages.map (fun s => s.id) :=
          List.mem_map_of_mem _ (hsub a (List.mem_cons_self _ _))
        exact (hw.1.mem_iff).mpr this
      obtain ⟨w1, x, w2, hwdec, hxin, hw1⟩ :=
        exists_first_split (fun y => (List.map (fun s => s.id) (a :: t)).contains y) w hexw
      obtain ⟨s, hsrem, hsid⟩ := by
        rw [contains_iff_mem] at hxin
        exact List.mem_map.mp hxin
      have hsstages : s ∈ stages := hsub s hsrem
      have hready : readyB comp s = true := by
        rw [readyB_iff]
        intro d hd
        have hdw1 : d ∈ w1 := hw.2 s hsstages d hd w1 w2 (by rw [hwdec, hsid])
        have hdnotrem : ¬ ((List.map (fun s => s.id) (a :: t)).contains d = true) := by
          intro hcontra
          rw [hw1 d hdw1] at hcontra
          exact absurd hcontra (by simp)
        -- d names an existing stage, which cannot be in rem, hence is completed
        have hdid : d ∈ stages.map (fun s => s.id) := hwf s hsstages d hd
        obtain ⟨u, hu, huid⟩ := List.mem_map.mp hdid
        rcases hinv u hu with hurem | hucomp
        · exact absurd (by rw [contains_iff_mem, List.mem_map]; exact ⟨u, hurem, huid⟩) hdnotrem
        · rw [← huid]; exact hucomp
      have hpick : (pickReady comp (a :: t)).isSome :=
        pickReady_isSome comp (a :: t) ⟨s, hsrem, hready⟩
      match hp : pickReady comp (a :: t) with
      | none => rw [hp] at hpick; simp at hpick
      | some (s0, rest) =>
        obtain ⟨l1, l2, h1, h2, _, _⟩ := pickReady_spec comp (a :: t) s0 rest hp
        have hlenrest : rest.length ≤ fuel := by
          have : (a :: t).length = rest.length + 1 := by
            rw [h1, h2]; simp only [List.length_append, List.length_cons]; omega
          omega
        have hsubrest : ∀ u ∈ rest, u ∈ stages := by
          intro u hu
          apply hsub
          rw [h1]
          rw [h2] at hu
          rcases List.mem_append.mp hu with h | h
          · exact List.mem_append_left _ h
          · exact List.mem_append_right _ (List.mem_cons_of_mem _ h)
        have hinvrest : ∀ u ∈ stages, u ∈ rest ∨ (s0.id :: comp).contains u.id = true := by
          intro u hu
          rcases hinv u hu with hurem | hucomp
          · rw [h1] at hurem
            rcases List.mem_append.mp hurem with h | h
            · left; rw [h2]; exact List.mem_append_left _ h
            · rcases List.mem_cons.mp h with rfl | h
              · right; simp
              · left; rw [h2]; exact List.mem_append_right _ h
          · right; simp only [List.contains_cons, Bool.or_eq_true]; right; exact hucomp
        have := ih rest (s0.id :: comp) hlenrest hsubrest hinvrest
        simp only [orderAux, hp]
        match hrec : orderAux fuel rest (s0.id :: comp) with
        | none => rw [hrec] at this; simp at this
        | some tl => simp

theorem find?_first (p : StageConfig → Bool) (l1 l2 : List StageConfig) (s : StageConfig)
    (h1 : ∀ t ∈ l1, p t = false) (h2 : p s = true) :
    (l1 ++ s :: l2).find? p = some s := by
  induction l1 with
  | nil => simp [List.find?_cons, h2]
  | cons a t ih =>
    have ha : p a = false := h1 a (List.mem_cons_self _ _)
    simp only [List.cons_append, List.find?_cons, ha]
    exact ih (fun t ht => h1 t (List.mem_cons_of_mem _ ht))

theorem pickReady_find? (c : List String) (l : List StageConfig) (s : StageConfig)
    (rest : List StageConfig) (h : pickReady c l = some (s, rest)) :
    l.find? (readyB c) = some s := by
  obtain ⟨l1, l2, h1, _, h3, h4⟩ := pickReady_spec c l s rest h
  rw [h1]
  exact find?_first (readyB c) l1 l2 s h4 h3

theorem filter_drop_picked (l1 l2 : List StageConfig) (s0 : StageConfig)
    (hnd : ((l1 ++ s0 :: l2).map (fun s => s.id)).Nodup) :
    (l1 ++ s0 :: l2).filter (fun t => !(t.id == s0.id)) = l1 ++ l2 := by
  have hids : s0.id ∉ l1.map (fun s => s.id) ∧ s0.id ∉ l2.map (fun s => s.id) := by
    simp only [List.map_append, List.map_cons, List.nodup_append, List.nodup_cons] at hnd
    constructor
    · intro hmem
      exact (hnd.2.2 hmem) (List.mem_cons_self _ _)
    · exact hnd.2.1.1
  have hl1 : l1.filter (fun t => !(t.id == s0.id)) = l1 := by
    rw [List.filter_eq_self]
    intro t ht
    simp only [Bool.not_eq_eq_eq_not, Bool.not_true, beq_eq_false_iff_ne, ne_eq]
    intro hcontra
    exact hids.1 (hcontra ▸ List.mem_map_of_mem _ ht)
  have hl2 : l2.filter (fun t => !(t.id == s0.id)) = l2 := by
    rw [List.filter_eq_self]
    intro t ht
    simp only [Bool.not_eq_eq_eq_not, Bool.not_true, beq_eq_false_iff_ne, ne_eq]
    intro hcontra
    exact hids.2 (hcontra ▸ List.mem_map_of_mem _ ht)
  rw [List.filter_append, hl1, List.filter_cons]
  simp only [beq_self_eq_true, Bool.not_true, Bool.false_eq_true, if_false, hl2]

theorem orderAux_eq_kahnAux (stages : List StageConfig)
    (hnd : (stages.map (fun s => s.id)).Nodup) (fuel : Nat)
    (rem : List StageConfig) (comp emitted ord : List String)
    (hrem : rem = stages.filter (fun s => !(comp.contains s.id)))
    (hcomp : ∀ x, comp.contains x = emitted.contains x)
    (h : orderAux fuel rem comp = some ord) :
    ord = kahnAux stages fuel emitted := by
  induction fuel generalizing rem comp emitted ord with
  | zero =>
    match rem with
    | [] => simp only [orderAux, Option.some.injEq] at h; rw [← h]; rfl
    | _ :: _ => simp [orderAux] at h
  | succ fuel ih =>
    match rem with
    | [] =>
      have hfilter : stages.filter (fun s => !(emitted.contains s.id)) = ([] : List StageConfig) := by
        rw [hrem]
        exact List.filter_congr (fun s _ => by rw [hcomp s.id])
      simp only [orderAux, Option.some.injEq] at h
      have : kahnStep stages emitted = none := by
        unfold kahnStep
        rw [hfilter]
        rfl
      rw [← h]
      simp [kahnAux, this]
    | a :: t =>
      have hfun : (fun d => emitted.contains d) = (fun d => comp.contains d) :=
        funext (fun d => (hcomp d).symm)
      have hfilter : stages.filter (fun s => !(emitted.contains s.id)) = a :: t := by
        rw [hrem]
        exact List.filter_congr (fun s _ => by rw [hcomp s.id])
      simp only [orderAux] at h
      match hp : pickReady comp (a :: t) with
      | none => simp only [hp] at h; exact absurd h (by simp)
      | some (s0, rest) =>
        simp only [hp] at h
        match hrec : orderAux fuel rest (s0.id :: comp) with
        | none => simp only [hrec, Option.map_none'] at h; exact absurd h (by simp)
        | some tl =>
          simp only [hrec, Option.map_some', Option.some.injEq] at h
          have hstep : kahnStep stages emitted = some s0 := by
            unfold kahnStep
            rw [hfilter, hfun]
            exact pickReady_find? comp (a :: t) s0 rest hp
          have hndrem : ((a :: t).map (fun s => s.id)).Nodup := by
            have hsub : (a :: t).Sublist stages := hrem ▸ List.filter_sublist stages
            exact ((hsub.map (fun s => s.id)).nodup) hnd
          obtain ⟨l1, l2, h1, h2, _, _⟩ := pickReady_spec comp (a :: t) s0 rest hp
          have hrest : rest = stages.filter (fun s => !((s0.id :: comp).contains s.id)) := by
            have hq : stages.filter (fun s => !((s0.id :: comp).contains s.id)) =
                (stages.filter (fun s => !(comp.contains s.id))).filter
                  (fun s => !(s.id == s0.id)) := by
              rw [List.filter_filter]
              exact List.filter_congr (fun s _ => by
                simp only [List.contains_cons, Bool.not_or])
            rw [hq, ← hrem, h1, filter_drop_picked l1 l2 s0 (h1 ▸ hndrem), ← h2]
          have hcomp2 : ∀ x, (s0.id :: comp).contains x = (emitted ++ [s0.id]).contains x := by
            intro x
            have : (emitted ++ [s0.id]).contains x =
                (emitted.contains x || [s0.id].contains x) := by
              simp [List.contains_eq_any_beq]
            rw [this]
            simp only [List.contains_cons, hcomp x, List.contains_cons, List.contains_nil,
              Bool.or_false]
            exact Bool.or_comm _ _
          have htl := ih rest (s0.id :: comp) (emitted ++ [s0.id]) tl hrest hcomp2 hrec
          rw [← h, htl]
          simp [kahnAux, hstep]

/-- Whenever the source planner returns an order at all and ids are unique,
that order is a topological order of the stage list. -/
theorem getExecutionOrder_isTopo (stages : List StageConfig) (ord : List String)
    (hnd : (stages.map (fun s => s.id)).Nodup)
    (h : getExecutionOrder stages = some ord) : IsTopoOrder stages ord := by
  refine ⟨orderAux_perm _ _ _ _ h, ?_⟩
  intro s hs d hd o1 o2 hdec
  rcases orderAux_deps stages.length stages [] ord hnd h o1 s.id o2 hdec s hs rfl d hd with
    habs | hmem
  · exact absurd habs (by simp)
  · exact hmem

/-- C7: for every acyclic pipeline definition, the execution order emitted by
the planner contains every stage id exactly once (it is a permutation of the
definition's id list), places every stage after all of its dependencies, and
is the deterministic Kahn order breaking ties by the stage's original index
in the definition. -/
theorem C7_planner_topological_order (stages : List StageConfig)
    (hnd : (stages.map (fun s => s.id)).Nodup) (hwf : DepsWF stages)
    (hacyc : AcyclicStages stages) :
    ∃ ord, getExecutionOrder stages = some ord ∧
      List.Perm ord (stages.map (fun s => s.id)) ∧
      RespectsDeps stages ord ∧ ord = kahnSpec stages := by
  obtain ⟨w, hw⟩ := hacyc
  have hsome : (getExecutionOrder stages).isSome :=
    orderAux_isSome stages w hw hwf stages.length stages []
      (le_refl _) (fun s hs => hs) (fun s hs => Or.inl hs)
  match hord : getExecutionOrder stages with
  | none => rw [hord] at hsome; simp at hsome
  | some ord =>
    refine ⟨ord, rfl, orderAux_perm _ _ _ _ hord, (getExecutionOrder_isTopo _ _ hnd hord).2, ?_⟩
    exact orderAux_eq_kahnAux stages hnd stages.length stages [] [] ord
      (by symm; rw [List.filter_eq_self]; intro a _; rfl) (fun _ => rfl) hord

theorem C7_planner_topological_order_witness :
    ((plannerWitnessStages.map (fun s => s.id)).Nodup ∧ DepsWF plannerWitnessStages ∧
      AcyclicStages plannerWitnessStages) ∧
    (∃ ord, getExecutionOrder plannerWitnessStages = some ord ∧
      List.Perm ord (plannerWitnessStages.map (fun s => s.id)) ∧
      RespectsDeps plannerWitnessStages ord ∧ ord = kahnSpec plannerWitnessStages) :=
  ⟨⟨by decide, by unfold DepsWF; decide,
    ⟨["a", "b", "c"], getExecutionOrder_isTopo _ _ (by decide) (by decide)⟩⟩,
   C7_planner_topological_order plannerWitnessStages (by decide) (by unfold DepsWF; decide)
    ⟨["a", "b", "c"], getExecutionOrder_isTopo _ _ (by decide) (by decide)⟩⟩

/-- C4 counterexample: re-applying the same terminal status through
update_status at a later clock is not a no-op — completed_at is overwritten
with the new clock and duration recomputed, so the claim fails as stated. -/
theorem C4_counterexample :
    updateStatusRow c4Row .completed none none none 20 ≠ c4Row ∧
    (updateStatusRow c4Row .completed none none none 20).status = c4Row.status ∧
    (updateStatusRow c4Row .completed none none none 20).completed_at = some 20 ∧
    c4Row.completed_at = some 10 ∧
    (updateStatusRow c4Row .completed none none none 20).duration = some 14 ∧
    c4Row.duration = some 4 := by decide

/-- C4 amended: re-applying the same terminal status through the durable
store's update_status leaves status, completed_stages, error and
current_stage unchanged, but overwrites completed_at with the re-application
clock and recomputes duration from started_at; it is a no-op exactly when
the clock equals the recorded completion time and the stored duration is
consistent with it. -/
theorem C4_terminal_reapply (r : ExecutionRow) (s : ExecutionStatus) (now : Int)
    (hterm : s.isTerminal = true) (hstat : r.status = s) :
    (updateStatusRow r s none none none now).status = r.status ∧
    (updateStatusRow r s none none none now).completed_stages = r.completed_stages ∧
    (updateStatusRow r s none none none now).error = r.error ∧
    (updateStatusRow r s none none none now).current_stage = r.current_stage ∧
    (updateStatusRow r s none none none now).completed_at = some now ∧
    (∀ t0, r.started_at = some t0 →
      (updateStatusRow r s none none none now).duration = some (now - t0)) ∧
    (r.completed_at = some now →
      (∀ t0, r.started_at = some t0 → r.duration = some (now - t0)) →
      updateStatusRow r s none none none now = r) := by
  subst hstat
  obtain ⟨id, pid, pname, status, ts, cs, cur, sa, ca, du, er, rs⟩ := r
  cases sa with
  | none =>
    refine ⟨?_, ?_, ?_, ?_, ?_, ?_, ?_⟩ <;>
      simp_all [updateStatusRow, pyTruthy]
  | some t0 =>
    refine ⟨?_, ?_, ?_, ?_, ?_, ?_, ?_⟩ <;>
      simp_all [updateStatusRow, pyTruthy]

/-- C6 counterexample: before retry attempt a = 1 the runner sleeps
retry_delay × backoff^1 = 2 s, not the claimed retry_base × backoff^(a−1)
= 1 s, and the 2 s delay exceeds the stage's 1 s timeout (there is no cap). -/
theorem C6_counterexample :
    attemptBackoffSleep c6Stage 1 = some 2 ∧
    c6Stage.retry_delay * EXECUTOR_RETRY_BACKOFF ^ (1 - 1) = 1 ∧
    ¬ ((2 : ℚ) ≤ c6Stage.timeout) := by
  refine ⟨?_, ?_, ?_⟩ <;>
    norm_num [attemptBackoffSleep, c6Stage, EXECUTOR_RETRY_BACKOFF]

/-- C6 amended: before every retry attempt a > 0 the Stage Runner sleeps
retry_delay × backoff^a seconds — one backoff factor more than the spec's
retry_base × backoff^(a−1) — and no cap by the stage timeout is applied. -/
theorem C6_backoff_exponent (stage : StageConfig) (a : Nat) (ha : 0 < a) :
    attemptBackoffSleep stage a =
      some (EXECUTOR_RETRY_BACKOFF * (stage.retry_delay * EXECUTOR_RETRY_BACKOFF ^ (a - 1))) := by
  obtain ⟨k, rfl⟩ : ∃ k, a = k + 1 := ⟨a - 1, by omega⟩
  unfold attemptBackoffSleep
  rw [if_pos (by omega : 0 < k + 1)]
  congr 1
  simp only [Nat.add_sub_cancel, pow_succ]
  ring

theorem C6_backoff_exponent_witness :
    0 < 1 ∧ attemptBackoffSleep c6Stage 1 =
      some (EXECUTOR_RETRY_BACKOFF *
        (c6Stage.retry_delay * EXECUTOR_RETRY_BACKOFF ^ (1 - 1))) :=
  ⟨by decide, C6_backoff_exponent c6Stage 1 (by decide)⟩

/-- C5 counterexample: 0.8 ≥ 0.7 yet the scorer returns "high", not
"critical" — the claimed band (critical iff score ≥ 0.7) fails. -/
theorem C5_counterexample :
    ((4/5 : ℚ) ≥ 7/10) ∧ getRiskLevel (4/5) = "high" ∧ ("high" : String) ≠ "critical" := by
  refine ⟨by norm_num, ?_, by decide⟩
  unfold getRiskLevel RISK_THRESHOLD_CRITICAL AI_RISK_THRESHOLD_HIGH
  rw [if_neg (by norm_num), if_pos (by norm_num)]

/-- C5 amended: under default thresholds the bands are low iff score < 0.4,
medium iff 0.4 ≤ score < 0.7, high iff 0.7 ≤ score < 0.9, critical iff
score ≥ 0.9 — the configured low threshold (0.2) is never consulted and the
critical edge is the hardcoded 0.9, not 0.7. -/
theorem C5_risk_level_bands (score : ℚ) :
    (getRiskLevel score = "low" ↔ score < 4/10) ∧
    (getRiskLevel score = "medium" ↔ 4/10 ≤ score ∧ score < 7/10) ∧
    (getRiskLevel score = "high" ↔ 7/10 ≤ score ∧ score < 9/10) ∧
    (getRiskLevel score = "critical" ↔ 9/10 ≤ score) := by
  unfold getRiskLevel RISK_THRESHOLD_CRITICAL AI_RISK_THRESHOLD_HIGH AI_RISK_THRESHOLD_MEDIUM
  by_cases h1 : (9/10 : ℚ) ≤ score
  · rw [if_pos h1]
    refine ⟨⟨fun h => absurd h (by decide), fun h => False.elim (by linarith)⟩,
      ⟨fun h => absurd h (by decide), fun h => False.elim (by linarith [h.2])⟩,
      ⟨fun h => absurd h (by decide), fun h => False.elim (by linarith [h.2])⟩,
      ⟨fun _ => h1, fun _ => rfl⟩⟩
  · rw [if_neg h1]
    have h1lt : score < 9/10 := not_le.mp h1
    by_cases h2 : (7/10 : ℚ) ≤ score
    · rw [if_pos h2]
      refine ⟨⟨fun h => absurd h (by decide), fun h => False.elim (by linarith)⟩,
        ⟨fun h => absurd h (by decide), fun h => False.elim (by linarith [h.2])⟩,
        ⟨fun _ => ⟨h2, h1lt⟩, fun _ => rfl⟩,
        ⟨fun h => absurd h (by decide), fun h => absurd h h1⟩⟩
    · rw [if_neg h2]
      have h2lt : score < 7/10 := not_le.mp h2
      by_cases h3 : (4/10 : ℚ) ≤ score
      · rw [if_pos h3]
        refine ⟨⟨fun h => absurd h (by decide), fun h => False.elim (by linarith)⟩,
          ⟨fun _ => ⟨h3, h2lt⟩, fun _ => rfl⟩,
          ⟨fun h => absurd h (by decide), fun h => absurd h.1 h2⟩,
          ⟨fun h => absurd h (by decide), fun h => absurd h h1⟩⟩
      · rw [if_neg h3]
        have h3lt : score < 4/10 := not_le.mp h3
        refine ⟨⟨fun _ => h3lt, fun _ => rfl⟩,
          ⟨fun h => absurd h (by decide), fun h => absurd h.1 h3⟩,
          ⟨fun h => absurd h (by decide), fun h => False.elim (by linarith [h.1])⟩,
          ⟨fun h => absurd h (by decide), fun h => False.elim (by linarith)⟩⟩

/-- C3: for every execution that the engine brought to a terminal state,
processing a callback of kind running or retry — any secret header, any
clock — never revives it: the handler raises before any status assignment
(line 96 reads the undeclared settings.AIRFLOW_CALLBACK_SECRET, and even
past that line 106 calls .value on the plain-str callback_type), so the
execution record is returned unchanged, its status still terminal, its
completed_at not cleared, and the request itself ends in an exception. -/
theorem C3_terminal_never_revived (e : ApiExecution) (cb : CallbackReq)
    (xSecret : Option String) (now : Int)
    (hterm : e.status.isTerminal = true)
    (hkind : cb.callback_type = "running" ∨ cb.callback_type = "retry") :
    (airflowCallback e cb xSecret now).1 = e ∧
    (airflowCallback e cb xSecret now).1.status.isTerminal = true ∧
    (airflowCallback e cb xSecret now).1.completed_at = e.completed_at ∧
    ∃ exc, (airflowCallback e cb xSecret now).2 = Except.error exc := by
  have hc : backendSettingsFields.contains "AIRFLOW_CALLBACK_SECRET" = false := by decide
  have hs : settingsGetSecret = Except.error (PyExc.attributeError
      "Settings object has no attribute AIRFLOW_CALLBACK_SECRET") := by
    simp [settingsGetSecret, hc]
    decide
  have h : airflowCallback e cb xSecret now =
      (e, Except.error (PyExc.attributeError
        "Settings object has no attribute AIRFLOW_CALLBACK_SECRET")) := by
    simp only [airflowCallback, hs]
  rw [h]
  exact ⟨rfl, hterm, rfl, ⟨_, rfl⟩⟩

theorem C3_terminal_never_revived_witness :
    c3Exec.status.isTerminal = true ∧
    (c3Callback.callback_type = "running" ∨ c3Callback.callback_type = "retry") ∧
    ((airflowCallback c3Exec c3Callback none 200).1 = c3Exec ∧
     (airflowCallback c3Exec c3Callback none 200).1.status.isTerminal = true ∧
     (airflowCallback c3Exec c3Callback none 200).1.completed_at = c3Exec.completed_at ∧
     ∃ exc, (airflowCallback c3Exec c3Callback none 200).2 = Except.error exc) :=
  ⟨rfl, Or.inl rfl,
    C3_terminal_never_revived c3Exec c3Callback none 200 rfl (Or.inl rfl)⟩

theorem C4_terminal_reapply_witness :
    updateStatusRow c4Row .completed none none none 10 = c4Row :=
  (C4_terminal_reapply c4Row .completed 10 rfl rfl).2.2.2.2.2.2 rfl
    (fun t0 ht => by simp only [c4Row] at ht ⊢; cases ht; decide)

/-! ## Loop bookkeeping lemmas for the supervisor model -/

theorem markStatus_redis (st : SysState) (eid : String) (s : ExecutionStatus)
    (e : Option String) (c : Option Nat) (now : Int) :
    (markStatus st eid s e c now).redis_keys = st.redis_keys := rfl

theorem markStatus_len (st : SysState) (eid : String) (s : ExecutionStatus)
    (e : Option String) (c : Option Nat) (now : Int) :
    (markStatus st eid s e c now).executions.length = st.executions.length := by
  simp [markStatus]

theorem markStatus_logs (st : SysState) (eid : String) (s : ExecutionStatus)
    (e : Option String) (c : Option Nat) (now : Int) :
    (markStatus st eid s e c now).logs = st.logs := rfl

theorem addLog_redis (st : SysState) (eid lv m : String) (sid : Option String) :
    (addLog st eid lv m sid).redis_keys = st.redis_keys := rfl

theorem addLog_len (st : SysState) (eid lv m : String) (sid : Option String) :
    (addLog st eid lv m sid).executions.length = st.executions.length := rfl

theorem addLog_mem (st : SysState) (eid lv m : String) (sid : Option String) :
    ({ execution_id := eid, level := lv, message := m, stage_id := sid } : LogRow) ∈
      (addLog st eid lv m sid).logs := by
  simp [addLog]

/-- The stage loop never touches the Redis keyspace, never adds or removes
execution rows, and only appends to the log stream. -/
theorem stagesLoop_frame (oracle : String → StageOutcome) (R : Nat)
    (stages : List StageConfig) (eid : String) (now : Int) :
    ∀ ord completed st,
      ((stagesLoop oracle R stages eid now ord completed st).1).redis_keys = st.redis_keys ∧
      ((stagesLoop oracle R stages eid now ord completed st).1).executions.length =
        st.executions.length ∧
      ∀ l ∈ st.logs, l ∈ ((stagesLoop oracle R stages eid now ord completed st).1).logs := by
  intro ord
  induction ord with
  | nil =>
    intro completed st
    refine ⟨rfl, by simp [stagesLoop, markStatus, addLog], ?_⟩
    intro l hl
    simp [stagesLoop, markStatus, addLog, hl]
  | cons sid rest ih =>
    intro completed st
    match hf : stages.find? (fun s => s.id == sid) with
    | none =>
      simp [stagesLoop, hf]
    | some stage =>
      cases hoc : (oracle sid).success with
      | true =>
        simp only [stagesLoop, hf, hoc, if_true]
        exact ih (completed + 1) st
      | false =>
        match hact : (selectSafeAction (some (oracle sid).errorMsg) none "medium"
            stage.is_critical R R).1 with
        | .SKIP_STAGE =>
          simp only [stagesLoop, hf, hoc, Bool.false_eq_true, if_false, hact]
          obtain ⟨ha, hb, hc⟩ := ih completed (addLog st eid "warning"
            ("Skipping non-critical stage " ++ sid ++ ": " ++
              (selectSafeAction (some (oracle sid).errorMsg) none "medium"
                stage.is_critical R R).2) (some sid))
          refine ⟨ha, hb, ?_⟩
          intro l hl
          exact hc l (by simp [addLog, hl])
        | .ROLLBACK =>
          simp only [stagesLoop, hf, hoc, Bool.false_eq_true, if_false, hact]
          refine ⟨rfl, by simp [markStatus, addLog], ?_⟩
          intro l hl
          simp [markStatus, addLog, hl]
        | .PAUSE_PIPELINE =>
          simp only [stagesLoop, hf, hoc, Bool.false_eq_true, if_false, hact]
          refine ⟨rfl, by simp [markStatus, addLog], ?_⟩
          intro l hl
          simp [markStatus, addLog, hl]
        | .TERMINATE =>
          simp only [stagesLoop, hf, hoc, Bool.false_eq_true, if_false, hact]
          refine ⟨rfl, by simp [markStatus, addLog], ?_⟩
          intro l hl
          simp [markStatus, addLog, hl]
        | .CONTINUE =>
          simp only [stagesLoop, hf, hoc, Bool.false_eq_true, if_false, hact]
          exact ih (completed + 1) st
        | .RETRY_STAGE =>
          simp only [stagesLoop, hf, hoc, Bool.false_eq_true, if_false, hact]
          exact ih (completed + 1) st

/-- The selector's answer for a failed non-critical stage with retries
exhausted: skip, with its fixed explanation. -/
theorem selectSafeAction_skip (msg : String) (hmsg : msg ≠ "") (riskLevel : String)
    (rc mr : Nat) (hge : mr ≤ rc) :
    selectSafeAction (some msg) none riskLevel false rc mr =
      (SafeAction.SKIP_STAGE,
        "Non-critical stage failed. Skipping to continue pipeline execution.") := by
  unfold selectSafeAction
  rw [if_neg (by simp [pyTruthy, hmsg]), if_neg (by intro h; omega), if_pos rfl]

/-- The selector's answer for a failed critical stage with retries exhausted
and no anomaly: pause. -/
theorem selectSafeAction_pause (msg : String) (hmsg : msg ≠ "") (riskLevel : String)
    (rc mr : Nat) (hge : mr ≤ rc) :
    selectSafeAction (some msg) none riskLevel true rc mr =
      (SafeAction.PAUSE_PIPELINE,
        "Pipeline paused after " ++ toString rc ++
          " failed retries. Awaiting manual intervention.") := by
  unfold selectSafeAction
  rw [if_neg (by simp [pyTruthy, hmsg]), if_neg (by intro h; omega),
    if_neg (by simp), if_pos (Or.inr hge)]

/-- C10: with a non-empty error in the context and retry_count ≥ max_retries,
select_safe_action returns skip_stage, rollback or pause_pipeline — never
continue, retry_stage or terminate — and consequently the supervisor's
post-failure fall-through never counts a failed stage: a failed non-critical
stage is skipped with completed_stages unchanged, and a failed critical
stage ends the loop with status failed and completed_stages unchanged. -/
theorem C10_failed_stage_not_counted :
    (∀ (e : String) (anomaly : Option AnomalyCtx) (riskLevel : String) (crit : Bool)
       (rc mr : Nat), e ≠ "" → mr ≤ rc →
       ((selectSafeAction (some e) anomaly riskLevel crit rc mr).1 = SafeAction.SKIP_STAGE ∨
        (selectSafeAction (some e) anomaly riskLevel crit rc mr).1 = SafeAction.ROLLBACK ∨
        (selectSafeAction (some e) anomaly riskLevel crit rc mr).1 = SafeAction.PAUSE_PIPELINE)) ∧
    (∀ (oracle : String → StageOutcome) (R : Nat) (stages : List StageConfig)
       (eid : String) (now : Int) (sid : String) (rest : List String)
       (completed : Nat) (st : SysState) (stage : StageConfig),
       stages.find? (fun s => s.id == sid) = some stage →
       (oracle sid).success = false → (oracle sid).errorMsg ≠ "" →
       (stage.is_critical = false →
         stagesLoop oracle R stages eid now (sid :: rest) completed st =
           stagesLoop oracle R stages eid now rest completed
             (addLog st eid "warning"
               ("Skipping non-critical stage " ++ sid ++ ": " ++
                 "Non-critical stage failed. Skipping to continue pipeline execution.")
               (some sid))) ∧
       (stage.is_critical = true →
         (stagesLoop oracle R stages eid now (sid :: rest) completed st).2 =
           Except.ok
             { success := false, execution_id := some eid, status := "failed",
               completed_stages := some completed,
               error := some ("Stage " ++ sid ++ " failed: " ++
                 ("Pipeline paused after " ++ toString R ++
                   " failed retries. Awaiting manual intervention.")) })) := by
  constructor
  · intro e anomaly riskLevel crit rc mr he hge
    unfold selectSafeAction
    rw [if_neg (by simp [pyTruthy, he]), if_neg (by intro h; omega)]
    by_cases hcrit : crit = false
    · rw [if_pos hcrit]; exact Or.inl rfl
    · rw [if_neg hcrit, if_pos (Or.inr hge)]
      cases anomaly with
      | none => exact Or.inr (Or.inr rfl)
      | some a =>
        dsimp only
        by_cases ht : a.anomaly_type = "error_burst"
        · rw [if_pos ht]; exact Or.inr (Or.inl rfl)
        · rw [if_neg ht]; exact Or.inr (Or.inr rfl)
  · intro oracle R stages eid now sid rest completed st stage hf hfail hmsg
    constructor
    · intro hcrit
      have hsel := selectSafeAction_skip (oracle sid).errorMsg hmsg "medium" R R (le_refl R)
      simp only [stagesLoop, hf, hfail, Bool.false_eq_true, if_false, hcrit, hsel]
    · intro hcrit
      have hsel := selectSafeAction_pause (oracle sid).errorMsg hmsg "medium" R R (le_refl R)
      simp only [stagesLoop, hf, hfail, Bool.false_eq_true, if_false, hcrit, hsel]

/-- If every stage of the order succeeds, the loop completes and counts each
one. -/
theorem stagesLoop_all_success (oracle : String → StageOutcome) (R : Nat)
    (stages : List StageConfig) (eid : String) (now : Int) :
    ∀ ord completed st,
      (∀ sid ∈ ord, (stages.find? (fun s => s.id == sid)).isSome) →
      (∀ sid ∈ ord, (oracle sid).success = true) →
      (stagesLoop oracle R stages eid now ord completed st).2 =
        Except.ok
          { success := true, execution_id := some eid, status := "completed",
            completed_stages := some (completed + ord.length) } := by
  intro ord
  induction ord with
  | nil =>
    intro completed st _ _
    simp [stagesLoop]
  | cons sid rest ih =>
    intro completed st hfind hsucc
    obtain ⟨stage, hf⟩ := Option.isSome_iff_exists.mp (hfind sid (List.mem_cons_self _ _))
    have hs := hsucc sid (List.mem_cons_self _ _)
    simp only [stagesLoop, hf, hs, if_true]
    have hlen : completed + (sid :: rest).length = (completed + 1) + rest.length := by
      simp only [List.length_cons]; omega
    rw [hlen]
    exact ih (completed + 1) st (fun x hx => hfind x (List.mem_cons_of_mem _ hx))
      (fun x hx => hsucc x (List.mem_cons_of_mem _ hx))

/-- The scenario of claim C8: exactly one stage `b`, non-critical, fails with
a non-empty error while every other stage of the order succeeds.  The loop
skips `b` with a warning log, runs the rest, and completes counting only the
successes. -/
theorem stagesLoop_skip_noncritical (oracle : String → StageOutcome) (R : Nat)
    (stages : List StageConfig) (eid : String) (now : Int) (b : String) (sb : StageConfig)
    (hfb : stages.find? (fun s => s.id == b) = some sb)
    (hcrit : sb.is_critical = false)
    (hbf : (oracle b).success = false) (hmsg : (oracle b).errorMsg ≠ "") :
    ∀ o1 o2 completed st,
      (∀ sid ∈ o1 ++ b :: o2, (stages.find? (fun s => s.id == sid)).isSome) →
      (∀ sid ∈ o1, (oracle sid).success = true) →
      (∀ sid ∈ o2, (oracle sid).success = true) →
      (stagesLoop oracle R stages eid now (o1 ++ b :: o2) completed st).2 =
        Except.ok
          { success := true, execution_id := some eid, status := "completed",
            completed_stages := some (completed + o1.length + o2.length) } ∧
      ({ execution_id := eid, level := "warning",
         message := "Skipping non-critical stage " ++ b ++ ": " ++
           "Non-critical stage failed. Skipping to continue pipeline execution.",
         stage_id := some b } : LogRow) ∈
        (stagesLoop oracle R stages eid now (o1 ++ b :: o2) completed st).1.logs := by
  intro o1
  induction o1 with
  | nil =>
    intro o2 completed st hfind _ hsucc2
    have hsel := selectSafeAction_skip (oracle b).errorMsg hmsg "medium" R R (le_refl R)
    simp only [List.nil_append, stagesLoop, hfb, hbf, Bool.false_eq_true, if_false, hcrit, hsel]
    constructor
    · have hall := stagesLoop_all_success oracle R stages eid now o2 completed
        (addLog st eid "warning"
          ("Skipping non-critical stage " ++ b ++ ": " ++
            "Non-critical stage failed. Skipping to continue pipeline execution.")
          (some b))
        (fun x hx => hfind x (by simp [hx])) hsucc2
      rw [show completed + List.length ([] : List String) + o2.length =
        completed + o2.length from by simp]
      exact hall
    · obtain ⟨_, _, hmono⟩ := stagesLoop_frame oracle R stages eid now o2 completed
        (addLog st eid "warning"
          ("Skipping non-critical stage " ++ b ++ ": " ++
            "Non-critical stage failed. Skipping to continue pipeline execution.")
          (some b))
      exact hmono _ (addLog_mem st eid "warning"
        ("Skipping non-critical stage " ++ b ++ ": " ++
          "Non-critical stage failed. Skipping to continue pipeline execution.")
        (some b))
  | cons x o1t ih =>
    intro o2 completed st hfind hsucc1 hsucc2
    obtain ⟨sx, hfx⟩ := Option.isSome_iff_exists.mp
      (hfind x (by simp))
    have hsx := hsucc1 x (List.mem_cons_self _ _)
    simp only [List.cons_append, stagesLoop, hfx, hsx, if_true]
    have hcount : completed + (x :: o1t).length + o2.length =
        (completed + 1) + o1t.length + o2.length := by
      simp only [List.length_cons]; omega
    rw [hcount]
    exact ih o2 (completed + 1) st
      (fun y hy => hfind y (by simp only [List.cons_append, List.mem_cons]; exact Or.inr hy))
      (fun y hy => hsucc1 y (List.mem_cons_of_mem _ hy)) hsucc2

/-- A start request finding the duplicate-run key absent proceeds as
admitted, with the key atomically set. -/
theorem executePipelineM_not_dup (st : SysState) (pid pname : String)
    (stages : List StageConfig) (riskBlock : Bool) (risk : ℚ)
    (oracle : String → StageOutcome) (R : Nat) (eid : String) (now : Int)
    (hfree : st.redis_keys.contains (pipelineLockKey pid) = false) :
    executePipelineM st pid pname stages riskBlock risk oracle R eid now =
      executeAdmitted { st with redis_keys := pipelineLockKey pid :: st.redis_keys }
        pid pname stages riskBlock risk oracle R eid now := by
  have hmem : pipelineLockKey pid ∉ st.redis_keys := fun hc => by
    rw [(contains_iff_mem _ _).mpr hc] at hfree
    exact absurd hfree (by simp)
  simp [executePipelineM, preventDuplicateRun, hmem]

/-- A start request finding the duplicate-run key held is rejected with no
state change at all. -/
theorem executePipelineM_dup (st : SysState) (pid pname : String)
    (stages : List StageConfig) (riskBlock : Bool) (risk : ℚ)
    (oracle : String → StageOutcome) (R : Nat) (eid : String) (now : Int)
    (hheld : st.redis_keys.contains (pipelineLockKey pid) = true) :
    executePipelineM st pid pname stages riskBlock risk oracle R eid now =
      (st, { success := false, execution_id := none, status := "rejected",
             error := some "Pipeline is already running" }) := by
  have hmem : pipelineLockKey pid ∈ st.redis_keys := (contains_iff_mem _ _).mp hheld
  simp [executePipelineM, preventDuplicateRun, hmem]

theorem map_unchanged {α : Type} (l : List α) (f : α → α) (h : ∀ a ∈ l, f a = a) :
    l.map f = l := by
  induction l with
  | nil => rfl
  | cons a t ih =>
    simp only [List.map_cons, h a (List.mem_cons_self _ _),
      ih (fun x hx => h x (List.mem_cons_of_mem _ hx))]

theorem releasePipelineLock_cons_self (l : List String) (pid : String)
    (hfree : l.contains (pipelineLockKey pid) = false) :
    releasePipelineLock (pipelineLockKey pid :: l) pid = l := by
  unfold releasePipelineLock
  rw [List.filter_cons]
  simp only [bne_self_eq_false, Bool.false_eq_true, if_false]
  apply List.filter_eq_self.mpr
  intro a ha
  simp only [bne_iff_ne, ne_eq]
  intro hcontra
  rw [hcontra] at ha
  rw [(contains_iff_mem l (pipelineLockKey pid)).mpr ha] at hfree
  exact absurd hfree (by simp)

/-- Transfer of loop facts through the admitted path: when the planner
returns an order and the loop's verdict and a log entry are independent of
the state the loop starts from, they carry over to the whole admitted run. -/
theorem executeAdmitted_loop_transfer (st : SysState) (pid pname : String)
    (stages : List StageConfig) (risk : ℚ) (oracle : String → StageOutcome) (R : Nat)
    (eid : String) (now : Int) (ord : List String) (r : PipelineResult) (L : LogRow)
    (horder : getExecutionOrder stages = some ord)
    (hloop : ∀ st0, (stagesLoop oracle R stages eid now ord 0 st0).2 = Except.ok r)
    (hlog : ∀ st0, L ∈ (stagesLoop oracle R stages eid now ord 0 st0).1.logs) :
    (executeAdmitted st pid pname stages false risk oracle R eid now).2 = r ∧
    L ∈ ((executeAdmitted st pid pname stages false risk oracle R eid now).1).logs := by
  unfold executeAdmitted
  simp only [Bool.false_eq_true, if_false]
  unfold executeStagesM
  simp only [horder, hloop]
  exact ⟨by trivial, hlog _⟩

/-- C8: a run in which one non-critical stage exhausts its retries and fails
with a non-empty error while every other stage of the order succeeds: the
supervisor logs the skip warning for that stage, the following stages still
run, the execution terminates with status completed, and completed_stages
counts exactly the successful stages (the skipped one excluded). -/
theorem C8_noncritical_skip_completes (st : SysState) (pid pname : String)
    (stages : List StageConfig) (risk : ℚ) (oracle : String → StageOutcome) (R : Nat)
    (eid : String) (now : Int) (b : String) (sb : StageConfig) (o1 o2 : List String)
    (hfree : st.redis_keys.contains (pipelineLockKey pid) = false)
    (horder : getExecutionOrder stages = some (o1 ++ b :: o2))
    (hfb : stages.find? (fun s => s.id == b) = some sb)
    (hcrit : sb.is_critical = false)
    (hbf : (oracle b).success = false) (hmsg : (oracle b).errorMsg ≠ "")
    (hfind : ∀ sid ∈ o1 ++ b :: o2, (stages.find? (fun s => s.id == sid)).isSome)
    (hs1 : ∀ sid ∈ o1, (oracle sid).success = true)
    (hs2 : ∀ sid ∈ o2, (oracle sid).success = true) :
    (executePipelineM st pid pname stages false risk oracle R eid now).2 =
      { success := true, execution_id := some eid, status := "completed",
        completed_stages := some (o1.length + o2.length) } ∧
    ({ execution_id := eid, level := "warning",
       message := "Skipping non-critical stage " ++ b ++ ": " ++
         "Non-critical stage failed. Skipping to continue pipeline execution.",
       stage_id := some b } : LogRow) ∈
      (executePipelineM st pid pname stages false risk oracle R eid now).1.logs := by
  rw [executePipelineM_not_dup st pid pname stages false risk oracle R eid now hfree]
  refine executeAdmitted_loop_transfer _ pid pname stages risk oracle R eid now
    (o1 ++ b :: o2) _ _ horder ?_ ?_
  · intro st0
    have h := (stagesLoop_skip_noncritical oracle R stages eid now b sb
      hfb hcrit hbf hmsg o1 o2 0 st0 hfind hs1 hs2).1
    rwa [show (0 : Nat) + o1.length + o2.length = o1.length + o2.length from by omega] at h
  · intro st0
    exact (stagesLoop_skip_noncritical oracle R stages eid now b sb
      hfb hcrit hbf hmsg o1 o2 0 st0 hfind hs1 hs2).2

/-- The stage-execution phase never touches the Redis keyspace and never
adds or removes execution rows. -/
theorem executeStagesM_frame (oracle : String → StageOutcome) (R : Nat)
    (stages : List StageConfig) (eid : String) (now : Int) (st : SysState) :
    ((executeStagesM oracle R stages eid now st).1).redis_keys = st.redis_keys ∧
    ((executeStagesM oracle R stages eid now st).1).executions.length =
      st.executions.length := by
  unfold executeStagesM
  match hgo : getExecutionOrder stages with
  | none => simp only [hgo]; exact ⟨by trivial, by trivial⟩
  | some ord =>
    simp only [hgo]
    obtain ⟨h1, h2, _⟩ := stagesLoop_frame oracle R stages eid now ord 0
      (addLog (markStatus st eid .running none none now) eid "info"
        ("Execution order: " ++ String.intercalate " -> " ord) none)
    refine ⟨h1.trans rfl, ?_⟩
    rw [h2]
    simp [markStatus, addLog]

/-- The admitted path creates exactly one execution row and finally releases
the pipeline's duplicate-run key. -/
theorem executeAdmitted_frame (st : SysState) (pid pname : String)
    (stages : List StageConfig) (risk : ℚ) (oracle : String → StageOutcome) (R : Nat)
    (eid : String) (now : Int) :
    ((executeAdmitted st pid pname stages false risk oracle R eid now).1).executions.length =
      st.executions.length + 1 ∧
    ((executeAdmitted st pid pname stages false risk oracle R eid now).1).redis_keys =
      releasePipelineLock st.redis_keys pid := by
  unfold executeAdmitted
  simp only [Bool.false_eq_true, if_false]
  have hfr := executeStagesM_frame oracle R stages eid now
    (addLog { st with
        executions := st.executions ++
          [newExecutionRow eid pid pname stages.length (some risk) now],
        stage_rows := st.stage_rows ++ stages.map (fun s => (eid, s.id)) }
      eid "info" ("Starting pipeline execution: " ++ pname) none)
  rcases hsplit : executeStagesM oracle R stages eid now
      (addLog { st with
          executions := st.executions ++
            [newExecutionRow eid pid pname stages.length (some risk) now],
          stage_rows := st.stage_rows ++ stages.map (fun s => (eid, s.id)) }
        eid "info" ("Starting pipeline execution: " ++ pname) none) with ⟨st1, res⟩
  rw [hsplit] at hfr
  simp only [hsplit]
  simp only [addLog] at hfr
  cases res with
  | ok r =>
    refine ⟨?_, ?_⟩
    · simpa using hfr.2
    · have := hfr.1
      simp only at this
      simp [this]
  | error e =>
    refine ⟨?_, ?_⟩
    · simp only [markStatus, addLog, List.length_map]
      simpa using hfr.2
    · have := hfr.1
      simp only at this
      simp [markStatus, addLog, this]

theorem C8_noncritical_skip_completes_witness :
    (executePipelineM {} "p" "P" skipStages false 0 failB 3 "e" 5).2 =
      { success := true, execution_id := some "e", status := "completed",
        completed_stages := some ((["a"] : List String).length + (["c"] : List String).length) } ∧
    ({ execution_id := "e", level := "warning",
       message := "Skipping non-critical stage " ++ "b" ++ ": " ++
         "Non-critical stage failed. Skipping to continue pipeline execution.",
       stage_id := some "b" } : LogRow) ∈
      (executePipelineM {} "p" "P" skipStages false 0 failB 3 "e" 5).1.logs :=
  C8_noncritical_skip_completes {} "p" "P" skipStages 0 failB 3 "e" 5 "b"
    { mkStage "b" ["a"] with is_critical := false } ["a"] ["c"]
    (by decide) (by decide) (by decide) (by decide) (by decide) (by decide)
    (by decide) (by decide) (by decide)

theorem C10_failed_stage_not_counted_witness :
    ((selectSafeAction (some "boom") none "medium" true 3 3).1 = SafeAction.SKIP_STAGE ∨
     (selectSafeAction (some "boom") none "medium" true 3 3).1 = SafeAction.ROLLBACK ∨
     (selectSafeAction (some "boom") none "medium" true 3 3).1 = SafeAction.PAUSE_PIPELINE) ∧
    (stagesLoop failB 3 plannerWitnessStages "e" 5 ("b" :: ["c"]) 1 {}).2 =
      Except.ok
        { success := false, execution_id := some "e", status := "failed",
          completed_stages := some 1,
          error := some ("Stage " ++ "b" ++ " failed: " ++
            ("Pipeline paused after " ++ toString 3 ++
              " failed retries. Awaiting manual intervention.")) } :=
  ⟨C10_failed_stage_not_counted.1 "boom" none "medium" true 3 3 (by decide) (by decide),
   (C10_failed_stage_not_counted.2 failB 3 plannerWitnessStages "e" 5 "b" ["c"] 1 {}
     (mkStage "b" ["a"]) (by decide) (by decide) (by decide)).2 rfl⟩

/-- C2 counterexample: starting the cyclic pipeline a <-> b from an empty
store does create an execution row (the store is changed) and the request
ends with result status "failed", not an admission failure with no row. -/
theorem C2_counterexample :
    getExecutionOrder cycStages = none ∧
    (executePipelineM {} "p" "P" cycStages false 0 alwaysOk 3 "e1" 5).1.executions.length = 1 ∧
    (executePipelineM {} "p" "P" cycStages false 0 alwaysOk 3 "e1" 5).2.status = "failed" := by
  refine ⟨by decide, by decide, by decide⟩

/-- C2 amended: for a pipeline whose dependency graph contains a cycle, the
start request is admitted, the execution row (and its stage rows) are
created, the cycle is detected while ordering, and the request terminates
with result status failed, the created row left in the store with status
failed; the duplicate-run key is released. -/
theorem C2_cycle_creates_row_then_fails (st : SysState) (pid pname : String)
    (stages : List StageConfig) (risk : ℚ) (oracle : String → StageOutcome) (R : Nat)
    (eid : String) (now : Int)
    (hfree : st.redis_keys.contains (pipelineLockKey pid) = false)
    (hfresh : ∀ r ∈ st.executions, r.id ≠ eid)
    (hcyc : getExecutionOrder stages = none) :
    (executePipelineM st pid pname stages false risk oracle R eid now).2.status = "failed" ∧
    (executePipelineM st pid pname stages false risk oracle R eid now).2.success = false ∧
    (executePipelineM st pid pname stages false risk oracle R eid now).1.executions =
      st.executions ++
        [updateStatusRow (newExecutionRow eid pid pname stages.length (some risk) now)
          .failed (some circularDepMessage) none none now] ∧
    (executePipelineM st pid pname stages false risk oracle R eid now).1.redis_keys =
      st.redis_keys := by
  rw [executePipelineM_not_dup st pid pname stages false risk oracle R eid now hfree]
  unfold executeAdmitted
  simp only [Bool.false_eq_true, if_false]
  unfold executeStagesM
  simp only [hcyc]
  refine ⟨by trivial, by trivial, ?_, ?_⟩
  · simp only [markStatus, addLog, releasePipelineLock]
    rw [List.map_append]
    rw [map_unchanged st.executions _ (fun r hr => by
      rw [if_neg]
      simp [hfresh r hr])]
    simp [newExecutionRow]
  · simp only [markStatus, addLog]
    exact releasePipelineLock_cons_self st.redis_keys pid hfree

theorem C2_cycle_creates_row_then_fails_witness :
    (executePipelineM {} "p" "P" cycStages false 0 alwaysOk 3 "e1" 5).2.status = "failed" ∧
    (executePipelineM {} "p" "P" cycStages false 0 alwaysOk 3 "e1" 5).2.success = false ∧
    (executePipelineM {} "p" "P" cycStages false 0 alwaysOk 3 "e1" 5).1.executions =
      ({} : SysState).executions ++
        [updateStatusRow (newExecutionRow "e1" "p" "P" cycStages.length (some 0) 5)
          .failed (some circularDepMessage) none none 5] ∧
    (executePipelineM {} "p" "P" cycStages false 0 alwaysOk 3 "e1" 5).1.redis_keys =
      ({} : SysState).redis_keys :=
  C2_cycle_creates_row_then_fails {} "p" "P" cycStages 0 alwaysOk 3 "e1" 5
    (by decide) (by decide) (by decide)

/-- C1: while a pipeline's duplicate-run key is held, every start request for
it is rejected with status "rejected" and the system state — in particular
the durable store — is unchanged; the winning request's atomic set-if-absent
acquires and holds the key, the stage-execution phase never releases it, and
the winner's full run creates exactly one execution row.  Two concurrent
start requests therefore create exactly one row: the one whose SET NX runs
second sees the key and is rejected before touching the store. -/
theorem C1_duplicate_run_exclusion (pid : String) :
    (∀ (st : SysState) (pname : String) (stages : List StageConfig) (riskBlock : Bool)
       (risk : ℚ) (oracle : String → StageOutcome) (R : Nat) (eid : String) (now : Int),
       st.redis_keys.contains (pipelineLockKey pid) = true →
       executePipelineM st pid pname stages riskBlock risk oracle R eid now =
         (st, { success := false, execution_id := none, status := "rejected",
                error := some "Pipeline is already running" })) ∧
    (∀ st : SysState, st.redis_keys.contains (pipelineLockKey pid) = false →
       (preventDuplicateRun st.redis_keys pid).1 = false ∧
       ((preventDuplicateRun st.redis_keys pid).2).contains (pipelineLockKey pid) = true) ∧
    (∀ (oracle : String → StageOutcome) (R : Nat) (stages : List StageConfig)
       (eid : String) (now : Int) (st : SysState),
       ((executeStagesM oracle R stages eid now st).1).redis_keys = st.redis_keys) ∧
    (∀ (st : SysState) (pname : String) (stages : List StageConfig)
       (risk : ℚ) (oracle : String → StageOutcome) (R : Nat) (eid : String) (now : Int),
       st.redis_keys.contains (pipelineLockKey pid) = false →
       ((executePipelineM st pid pname stages false risk oracle R eid now).1).executions.length
         = st.executions.length + 1) := by
  refine ⟨?_, ?_, ?_, ?_⟩
  · intro st pname stages riskBlock risk oracle R eid now hheld
    exact executePipelineM_dup st pid pname stages riskBlock risk oracle R eid now hheld
  · intro st hfree
    have hmem : pipelineLockKey pid ∉ st.redis_keys := fun hc => by
      rw [(contains_iff_mem _ _).mpr hc] at hfree
      exact absurd hfree (by simp)
    constructor
    · simp [preventDuplicateRun, hmem]
    · simp [preventDuplicateRun, hmem]
  · intro oracle R stages eid now st
    exact (executeStagesM_frame oracle R stages eid now st).1
  · intro st pname stages risk oracle R eid now hfree
    rw [executePipelineM_not_dup st pid pname stages false risk oracle R eid now hfree]
    exact (executeAdmitted_frame { st with
      redis_keys := pipelineLockKey pid :: st.redis_keys }
      pid pname stages risk oracle R eid now).1

theorem C1_duplicate_run_exclusion_witness :
    (executePipelineM lockedState "p" "P" skipStages false 0 alwaysOk 3 "e" 5 =
      (lockedState, { success := false, execution_id := none, status := "rejected",
                      error := some "Pipeline is already running" })) ∧
    ((preventDuplicateRun ({} : SysState).redis_keys "p").1 = false ∧
     ((preventDuplicateRun ({} : SysState).redis_keys "p").2).contains
       (pipelineLockKey "p") = true) ∧
    ((executeStagesM alwaysOk 3 skipStages "e" 5 lockedState).1).redis_keys =
      lockedState.redis_keys ∧
    ((executePipelineM {} "p" "P" skipStages false 0 alwaysOk 3 "e" 5).1).executions.length =
      ({} : SysState).executions.length + 1 :=
  ⟨(C1_duplicate_run_exclusion "p").1 lockedState "P" skipStages false 0 alwaysOk 3 "e" 5
      (by decide),
   (C1_duplicate_run_exclusion "p").2.1 {} (by decide),
   (C1_duplicate_run_exclusion "p").2.2.1 alwaysOk 3 skipStages "e" 5 lockedState,
   (C1_duplicate_run_exclusion "p").2.2.2 {} "P" skipStages 0 alwaysOk 3 "e" 5 (by decide)⟩

/-- C9: the risk assessment is a pure, deterministic function of the
statistics record, with the clock entering only through the number of days
since the recorded last success: two evaluations whose days-since agree (in
particular, any two when no last success is recorded) return bit-identical
scores, levels, blocking decisions, factors, recommendations and
explanations. -/
theorem C9_risk_scorer_deterministic (stats : PipelineStats) (now now2 : Int)
    (h : stats.last_success_time.map (fun t => now - t) =
         stats.last_success_time.map (fun t => now2 - t)) :
    assessRisk stats now = assessRisk stats now2 := by
  unfold assessRisk
  cases hls : stats.last_success_time with
  | none => rfl
  | some t =>
    rw [hls] at h
    simp only [Option.map_some', Option.some.injEq] at h
    simp only [h]

theorem C9_risk_scorer_deterministic_witness :
    assessRisk c9Stats 5 = assessRisk c9Stats 9 :=
  C9_risk_scorer_deterministic c9Stats 5 9 rfl

end FlexiRoaster
